import Mathlib

/-!
Verification of the marshalling core (src/src/convert.rs) of emacs-module-rs:
a shallow embedding of the conversion layer between native Rust values and
opaque Emacs Lisp value handles, together with theorems about its behaviour.

The embedding models:
  - host value handles (`HostVal`) and the host primitives the module consumes
    (`Env`), each returning `Except Signal _` to reflect the raw-call gateway
    (`raw_call!` + `handle_exit`) which converts a pending nonlocal exit into
    a `Signal` error;
  - the error taxonomy (`ErrorKind`), the panic-vs-error distinction
    (`Outcome`);
  - the registered transferable types and their per-type finalizer tags;
  - the conversion functions of convert.rs: scalar, string (two-phase copy),
    `Option`, and opaque user-pointer retrieval.
-/

namespace EmacsConvert

/-- An abstract token for a host nonlocal exit (an Emacs signal or throw)
observed by the raw-call gateway. Modelled from the spec: the gateway
reports only whether a host-level signal was raised. -/
structure Signal where
  id : Nat
deriving DecidableEq, Repr

/-- A host value handle: an opaque token referencing a value in the host
heap. `symbol` covers interned symbols (the nil / t sentinels); all other
handles are abstract (`other`). -/
inductive HostVal where
  | symbol (name : String)
  | other (id : Nat)
deriving DecidableEq, Repr

/-- The shareable wrapper types pre-registered as transferable by the
source's `enable_transfers!` invocation (src/src/convert.rs lines 138-144). -/
inductive Wrapper where
  | refCell
  | mutex
  | rwLock
  | rc
  | arc
deriving DecidableEq, Repr

/-- A registered transferable native type: either one of the five registered
shareable wrappers applied to an inner type, or a base native type named by
a string. Distinct values model distinct Rust types implementing `Transfer`. -/
inductive TransferType where
  | wrap (w : Wrapper) (inner : TransferType)
  | base (name : String)
deriving DecidableEq, Repr

def Wrapper.displayName : Wrapper → String
  | .refCell => "RefCell"
  | .mutex => "Mutex"
  | .rwLock => "RwLock"
  | .rc => "Rc"
  | .arc => "Arc"

/-- Modelled from the spec: `Transfer::type_name` yields the type's display
name (used in `WrongTypeUserPtr` errors); the trait itself is outside
convert.rs. -/
def TransferType.type_name : TransferType → String
  | .wrap w inner => w.displayName ++ "<" ++ inner.type_name ++ ">"
  | .base n => n

/-- The identity of a monomorphized instance of the generic finalizer
function. Modelled from the spec: the source's `finalize` (src/src/convert.rs
lines 124-128) is generic over `T: Transfer`; Rust instantiates one distinct
function per concrete type ("relying on Rust's mono-morphization", per the
code comment), so a monomorphized instance's identity is determined by the
instantiating type, which we record. -/
structure Finalizer where
  instType : TransferType
deriving DecidableEq, Repr

/-- The finalizer instantiated for `T` (`finalize::<T>`): its function
identity, used as the runtime type tag. -/
def finalize (T : TransferType) : Finalizer := ⟨T⟩

/-- The error taxonomy surfaced by the conversion layer. Modelled from the
spec: `super::error::ErrorKind` is outside convert.rs; the spec names
`Signal` (host raised during a call) and `WrongTypeUserPtr` carrying the
expected type's display name. -/
inductive ErrorKind where
  | signal (s : Signal)
  | wrongTypeUserPtr (expected : String)
deriving DecidableEq, Repr

/-- Result of an operation that can also abort the process: `ok` and `err`
are the two recoverable arms of the source's `Result`; `panicked` models a
Rust `panic!` / `unwrap` abort, which returns nothing to the caller. -/
inductive Outcome (α : Type) where
  | ok (a : α)
  | err (e : ErrorKind)
  | panicked (msg : String)
deriving DecidableEq, Repr

/-- The host primitives consumed by convert.rs, as functions on host values.
Each returns `Except Signal _`: the raw-call gateway either yields the
primitive's result or reports a pending host signal. `copy_phase1` is
`copy_string_contents` called with a null buffer (returns the boolean
result and the reported byte length); `copy_phase2 v n` is
`copy_string_contents` called with an allocated buffer of size `n` (returns
the boolean result and the bytes the host wrote). `is_not_nil` and `intern`
are modelled from the spec: they live outside convert.rs; `nil` is the
absence sentinel. -/
structure Env where
  intern : String → Except Signal HostVal
  is_not_nil : HostVal → Bool
  make_integer : Int → Except Signal HostVal
  extract_integer : HostVal → Except Signal Int
  make_float : Nat → Except Signal HostVal
  extract_float : HostVal → Except Signal Nat
  copy_phase1 : HostVal → Except Signal (Bool × Int)
  copy_phase2 : HostVal → Nat → Except Signal (Bool × List Nat)
  get_user_finalizer : HostVal → Except Signal (Option Finalizer)
  get_user_ptr : HostVal → Except Signal Nat
  make_user_ptr : Option Finalizer → Nat → Except Signal HostVal

/-- `raw_call!` / `handle_exit`: lift a gateway result into the error
taxonomy, turning a host signal into `ErrorKind.signal`. -/
def hostCall {α : Type} : Except Signal α → Except ErrorKind α
  | .ok a => .ok a
  | .error s => .error (.signal s)

/-- `impl FromLisp for i64` (src/src/convert.rs lines 19-23). -/
def i64_from_lisp (env : Env) (v : HostVal) : Except ErrorKind Int :=
  hostCall (env.extract_integer v)

/-- `impl FromLisp for f64` (lines 25-29). The f64 payload is modelled by
its 64-bit pattern as a `Nat`; convert.rs passes it through opaquely. -/
def f64_from_lisp (env : Env) (v : HostVal) : Except ErrorKind Nat :=
  hostCall (env.extract_float v)

/-- `impl IntoLisp for i64` (lines 85-89). -/
def i64_into_lisp (env : Env) (i : Int) : Except ErrorKind HostVal :=
  hostCall (env.make_integer i)

/-- `impl IntoLisp for f64` (lines 91-95), on the 64-bit pattern. -/
def f64_into_lisp (env : Env) (x : Nat) : Except ErrorKind HostVal :=
  hostCall (env.make_float x)

/-- `impl FromLisp for Option<T>` (lines 46-54), parametric in the inner
conversion `fromT`. -/
def option_from_lisp {α : Type} (fromT : HostVal → Except ErrorKind α)
    (env : Env) (v : HostVal) : Except ErrorKind (Option α) :=
  if env.is_not_nil v then
    match fromT v with
    | .ok t => .ok (some t)
    | .error e => .error e
  else
    .ok none

/-- `impl IntoLisp for Option<T>` (lines 112-119), parametric in the inner
conversion `intoT`. -/
def option_into_lisp {α : Type} (intoT : α → Except ErrorKind HostVal)
    (env : Env) : Option α → Except ErrorKind HostVal
  | some t => intoT t
  | none => hostCall (env.intern "nil")

/-- The loop of `strip_trailing_zero_bytes` (lines 146-152): while the last
byte is zero, pop it. The fuel argument plays the role of the source's
decreasing `len` counter (the loop runs at most `bytes.length` times);
`bytes.getLast? = some 0` is `len > 0 && bytes[len - 1] == 0`. -/
def stripLoop : Nat → List Nat → List Nat
  | 0, bytes => bytes
  | n + 1, bytes =>
    if bytes.getLast? = some 0 then stripLoop n bytes.dropLast else bytes

/-- `strip_trailing_zero_bytes` (lines 146-152). -/
def strip_trailing_zero_bytes (bytes : List Nat) : List Nat :=
  stripLoop bytes.length bytes

/-- `Env::string_bytes` (lines 158-190): the two-phase copy protocol.
Phase 1 probes the length with a null buffer; a gateway-reported signal
propagates as an error, and a `false` boolean return under gateway success
panics. Phase 2 allocates `len` zero bytes, lets the host fill them, with
the same signal/panic discipline; the buffer (host-written content,
truncated to the allocation and padded with the untouched zero bytes) then
has its trailing zero bytes stripped. -/
def string_bytes (env : Env) (v : HostVal) : Outcome (List Nat) :=
  match env.copy_phase1 v with
  | .error s => .err (.signal s)
  | .ok (ok1, len) =>
    if ok1 = false then
      .panicked "Emacs failed to give string length but did not raise a signal"
    else
      let n : Nat := len.toNat
      match env.copy_phase2 v n with
      | .error s => .err (.signal s)
      | .ok (ok2, content) =>
        if ok2 = false then
          .panicked "Emacs failed to copy string but did not raise a signal"
        else
          .ok (strip_trailing_zero_bytes
            (content.take n ++ List.replicate (n - content.length) 0))

/-- Whether a 64-bit float pattern is a NaN: exponent bits all ones and a
non-zero mantissa. -/
def isNaNBits (x : Nat) : Bool :=
  (x / 2 ^ 52) % 2 ^ 11 = 2 ^ 11 - 1 && x % 2 ^ 52 ≠ 0

/-- Bitwise equality excluding NaN payload differences. -/
def sameF64ModNaN (x y : Nat) : Bool :=
  x = y || (isNaNBits x && isNaNBits y)

/-- UTF-8 continuation byte. -/
def isCont (b : Nat) : Bool := 0x80 ≤ b && b ≤ 0xBF

/-- Well-formed UTF-8, per the encoding's definition (RFC 3629 table):
models the validation performed by Rust's `String::from_utf8`, which is
what convert.rs calls under the `utf-8-validation` feature. -/
def isValidUtf8 : List Nat → Bool
  | [] => true
  | b :: rest =>
    if b ≤ 0x7F then isValidUtf8 rest
    else if 0xC2 ≤ b && b ≤ 0xDF then
      match rest with
      | c1 :: rest1 => isCont c1 && isValidUtf8 rest1
      | [] => false
    else if b = 0xE0 then
      match rest with
      | c1 :: c2 :: rest2 =>
        (0xA0 ≤ c1 && c1 ≤ 0xBF) && isCont c2 && isValidUtf8 rest2
      | _ => false
    else if (0xE1 ≤ b && b ≤ 0xEC) || b = 0xEE || b = 0xEF then
      match rest with
      | c1 :: c2 :: rest2 => isCont c1 && isCont c2 && isValidUtf8 rest2
      | _ => false
    else if b = 0xED then
      match rest with
      | c1 :: c2 :: rest2 =>
        (0x80 ≤ c1 && c1 ≤ 0x9F) && isCont c2 && isValidUtf8 rest2
      | _ => false
    else if b = 0xF0 then
      match rest with
      | c1 :: c2 :: c3 :: rest3 =>
        (0x90 ≤ c1 && c1 ≤ 0xBF) && isCont c2 && isCont c3 && isValidUtf8 rest3
      | _ => false
    else if 0xF1 ≤ b && b ≤ 0xF3 then
      match rest with
      | c1 :: c2 :: c3 :: rest3 =>
        isCont c1 && isCont c2 && isCont c3 && isValidUtf8 rest3
      | _ => false
    else if b = 0xF4 then
      match rest with
      | c1 :: c2 :: c3 :: rest3 =>
        (0x80 ≤ c1 && c1 ≤ 0x8F) && isCont c2 && isCont c3 && isValidUtf8 rest3
      | _ => false
    else false

/-- `impl FromLisp for String` under the `utf-8-validation` feature
(lines 39-43): `String::from_utf8(bytes).unwrap()` — on malformed UTF-8 the
`unwrap` of the `Err` panics; on well-formed bytes the text is returned. -/
def string_from_lisp_validated (env : Env) (v : HostVal) : Outcome (List Nat) :=
  match string_bytes env v with
  | .ok bytes =>
    if isValidUtf8 bytes then .ok bytes
    else .panicked "called Result::unwrap on an Err value"
  | .err e => .err e
  | .panicked m => .panicked m

/-- `impl FromLisp for String` without the feature (lines 32-37):
`String::from_utf8_unchecked`, trusting the host bytes. -/
def string_from_lisp_unchecked (env : Env) (v : HostVal) : Outcome (List Nat) :=
  string_bytes env v

/-- `Env::get_raw_pointer` (lines 192-204) instrumented with whether the
`get_user_ptr` primitive was invoked (`fetched`): ask the host for the
finalizer associated with the value; only on an identity match with
`finalize::<T>` fetch the raw pointer; otherwise fail with
`WrongTypeUserPtr` carrying `T::type_name()`. -/
instance {ε α : Type} [DecidableEq ε] [DecidableEq α] : DecidableEq (Except ε α) :=
  fun a b =>
    match a, b with
    | .ok x, .ok y => if h : x = y then .isTrue (by rw [h]) else .isFalse (by simp [h])
    | .error x, .error y => if h : x = y then .isTrue (by rw [h]) else .isFalse (by simp [h])
    | .ok _, .error _ => .isFalse (by simp)
    | .error _, .ok _ => .isFalse (by simp)

structure PtrFetch where
  result : Except ErrorKind Nat
  fetched : Bool
deriving DecidableEq, Repr

def get_raw_pointer (T : TransferType) (env : Env) (v : HostVal) : PtrFetch :=
  match hostCall (env.get_user_finalizer v) with
  | .error e => ⟨.error e, false⟩
  | .ok (some f) =>
    if f = finalize T then
      match hostCall (env.get_user_ptr v) with
      | .error e => ⟨.error e, true⟩
      | .ok p => ⟨.ok p, true⟩
    else
      ⟨.error (.wrongTypeUserPtr T.type_name), false⟩
  | .ok none => ⟨.error (.wrongTypeUserPtr T.type_name), false⟩

/-- `impl FromLisp for &T` (lines 56-60): `get_raw_pointer` then `map` the
unsafe dereference. The extra boolean records whether the dereference ran;
the borrowed reference is modelled by the address it borrows. -/
structure RefFetch where
  result : Except ErrorKind Nat
  fetched : Bool
  derefed : Bool
deriving DecidableEq, Repr

def ref_from_lisp (T : TransferType) (env : Env) (v : HostVal) : RefFetch :=
  let g := get_raw_pointer T env v
  match g.result with
  | .ok p => ⟨.ok p, g.fetched, true⟩
  | .error e => ⟨.error e, g.fetched, false⟩

/-- The native→host→native scalar round trip for i64:
`i64::from_lisp` applied to the result of `i64::into_lisp`. -/
def roundtrip_i64 (env : Env) (i : Int) : Except ErrorKind Int :=
  match i64_into_lisp env i with
  | .ok v => i64_from_lisp env v
  | .error e => .error e

/-- The native→host→native scalar round trip for f64 bit patterns. -/
def roundtrip_f64 (env : Env) (x : Nat) : Except ErrorKind Nat :=
  match f64_into_lisp env x with
  | .ok v => f64_from_lisp env v
  | .error e => .error e

/-- A concrete well-behaved host environment, used to instantiate the
theorems at concrete inputs. Its string holds the three bytes
`[104, 105, 0]` reported as length 3 (the last byte a trailing zero);
its sole embedded user pointer is tagged for the base type `X`. -/
def demoEnv : Env where
  intern := fun name => .ok (.symbol name)
  is_not_nil := fun v => decide (v ≠ HostVal.symbol "nil")
  make_integer := fun _ => .ok (.other 1)
  extract_integer := fun _ => .ok 5
  make_float := fun _ => .ok (.other 2)
  extract_float := fun _ => .ok 7
  copy_phase1 := fun _ => .ok (true, 3)
  copy_phase2 := fun _ _ => .ok (true, [104, 105, 0])
  get_user_finalizer := fun _ => .ok (some (finalize (.base "X")))
  get_user_ptr := fun _ => .ok 42
  make_user_ptr := fun _ p => .ok (.other p)

/-- A host that reports phase-1 success through the gateway but returns
`false` from `copy_string_contents`. -/
def envPhase1False : Env :=
  { demoEnv with copy_phase1 := fun _ => .ok (false, 3) }

/-- A host that reports phase-2 success through the gateway but returns
`false` from `copy_string_contents`. -/
def envPhase2False : Env :=
  { demoEnv with copy_phase2 := fun _ _ => .ok (false, []) }

/-- A host whose string content is the single byte `0xFF`, which is not
well-formed UTF-8. -/
def envBadUtf8 : Env :=
  { demoEnv with
    copy_phase1 := fun _ => .ok (true, 1)
    copy_phase2 := fun _ _ => .ok (true, [0xFF]) }

/-! ### Properties of `strip_trailing_zero_bytes` -/

theorem strip_nil : strip_trailing_zero_bytes [] = [] := rfl

theorem stripLoop_succ (n : Nat) (bytes : List Nat) :
    stripLoop (n + 1) bytes =
      if bytes.getLast? = some 0 then stripLoop n bytes.dropLast else bytes := rfl

theorem strip_concat_zero (l : List Nat) :
    strip_trailing_zero_bytes (l ++ [0]) = strip_trailing_zero_bytes l := by
  unfold strip_trailing_zero_bytes
  have hlen : (l ++ [0]).length = l.length + 1 := by simp
  rw [hlen, stripLoop_succ, List.getLast?_concat, List.dropLast_concat]
  simp

theorem strip_concat_nonzero (l : List Nat) (a : Nat) (ha : a ≠ 0) :
    strip_trailing_zero_bytes (l ++ [a]) = l ++ [a] := by
  unfold strip_trailing_zero_bytes
  have hlen : (l ++ [a]).length = l.length + 1 := by simp
  rw [hlen, stripLoop_succ, List.getLast?_concat]
  simp [ha]

/-- The stripped bytes are exactly a run of trailing zeros: the result
followed by some number of zero bytes reassembles the input. -/
theorem strip_decomp (l : List Nat) :
    ∃ z, strip_trailing_zero_bytes l ++ List.replicate z 0 = l := by
  induction l using List.reverseRecOn with
  | nil => exact ⟨0, rfl⟩
  | append_singleton l a ih =>
    by_cases ha : a = 0
    · subst ha
      obtain ⟨z, hz⟩ := ih
      refine ⟨z + 1, ?_⟩
      rw [strip_concat_zero, List.replicate_succ', ← List.append_assoc, hz]
    · exact ⟨0, by rw [strip_concat_nonzero l a ha, List.replicate, List.append_nil]⟩

/-- The result is empty or ends in a non-zero byte. -/
theorem strip_last (l : List Nat) :
    strip_trailing_zero_bytes l = [] ∨
      ∃ q y, strip_trailing_zero_bytes l = q ++ [y] ∧ y ≠ 0 := by
  induction l using List.reverseRecOn with
  | nil => exact .inl rfl
  | append_singleton l a ih =>
    by_cases ha : a = 0
    · subst ha
      rw [strip_concat_zero]
      exact ih
    · exact .inr ⟨l, a, strip_concat_nonzero l a ha, ha⟩

/-- Stripping is idempotent. -/
theorem strip_idem (l : List Nat) :
    strip_trailing_zero_bytes (strip_trailing_zero_bytes l) =
      strip_trailing_zero_bytes l := by
  rcases strip_last l with h | ⟨q, y, hq, hy⟩
  · rw [h]; exact strip_nil
  · rw [hq, strip_concat_nonzero q y hy]

/-- Maximality: any prefix of `l` that ends in a non-zero byte is no longer
than the stripped result, so the result is the longest such prefix. -/
theorem strip_maximal (l q : List Nat) (y : Nat) (t : List Nat)
    (hsplit : q ++ [y] ++ t = l) (hy : y ≠ 0) :
    q.length + 1 ≤ (strip_trailing_zero_bytes l).length := by
  obtain ⟨z, hz⟩ := strip_decomp l
  set s := strip_trailing_zero_bytes l with hs
  by_contra hlt
  push_neg at hlt
  have hsq : s.length ≤ q.length := Nat.lt_succ_iff.mp hlt
  have hlen : l.length = q.length + 1 + t.length := by
    rw [← hsplit]
    simp only [List.length_append, List.length_cons, List.length_nil]
  have hslen : s.length + z = l.length := by
    have := congrArg List.length hz
    simpa using this
  have hyl : l[q.length]? = some y := by
    rw [← hsplit, List.getElem?_append_left (by simp),
      List.getElem?_append_right (le_refl q.length)]
    simp
  have hzl : l[q.length]? = some 0 := by
    rw [← hz, List.getElem?_append_right hsq, List.getElem?_replicate]
    have : q.length - s.length < z := by omega
    simp [this]
  rw [hyl] at hzl
  exact hy (Option.some.inj hzl)

/-- C6: `strip_trailing_zero_bytes` removes exactly the maximal run of
trailing zero bytes: the result is a prefix of the input (so every interior
byte, zero or not, is preserved in place), the removed suffix consists of
zero bytes only, the result is empty or ends in a non-zero byte, any prefix
ending in a non-zero byte is no longer than the result (so the result is
the longest such prefix, empty when all bytes are zero), and the operation
is idempotent. -/
theorem strip_trailing_zero_bytes_spec (b : List Nat) :
    (∃ z, strip_trailing_zero_bytes b ++ List.replicate z 0 = b) ∧
    (strip_trailing_zero_bytes b = [] ∨
      ∃ q y, strip_trailing_zero_bytes b = q ++ [y] ∧ y ≠ 0) ∧
    (∀ q y t, q ++ [y] ++ t = b → y ≠ 0 →
      q.length + 1 ≤ (strip_trailing_zero_bytes b).length) ∧
    strip_trailing_zero_bytes (strip_trailing_zero_bytes b) =
      strip_trailing_zero_bytes b :=
  ⟨strip_decomp b, strip_last b,
    fun q y t hsplit hy => strip_maximal b q y t hsplit hy, strip_idem b⟩

/-- C6 witness: on `[1, 0, 2, 0, 0]` the maximal-prefix bound from the
theorem gives `3 ≤ (strip [1, 0, 2, 0, 0]).length`, and indeed stripping
yields `[1, 0, 2]`, keeping the interior zero. -/
theorem strip_trailing_zero_bytes_spec_witness :
    [1, 0, 2].length ≤ (strip_trailing_zero_bytes [1, 0, 2, 0, 0]).length ∧
      strip_trailing_zero_bytes [1, 0, 2, 0, 0] = [1, 0, 2] :=
  ⟨(strip_trailing_zero_bytes_spec [1, 0, 2, 0, 0]).2.2.1 [1, 0] 2 [0, 0]
      (by decide) (by decide),
    by decide⟩

/-! ### Opaque object transfer -/

/-- C1: if the finalizer currently associated with a host value is absent
or differs from the one instantiated for `T`, then `get_raw_pointer` (and
hence `FromLisp` for `&T`) fails with `WrongTypeUserPtr` carrying `T`'s
display name, returns no pointer, and neither fetches (`get_user_ptr` is
not invoked) nor dereferences the stored raw pointer. -/
theorem get_raw_pointer_wrong_tag (T : TransferType) (env : Env) (v : HostVal)
    (h : env.get_user_finalizer v = .ok none ∨
      ∃ f, env.get_user_finalizer v = .ok (some f) ∧ f ≠ finalize T) :
    get_raw_pointer T env v =
      ⟨.error (.wrongTypeUserPtr T.type_name), false⟩ ∧
    ref_from_lisp T env v =
      ⟨.error (.wrongTypeUserPtr T.type_name), false, false⟩ := by
  have hg : get_raw_pointer T env v =
      ⟨.error (.wrongTypeUserPtr T.type_name), false⟩ := by
    rcases h with h | ⟨f, hf, hne⟩
    · simp [get_raw_pointer, hostCall, h]
    · simp [get_raw_pointer, hostCall, hf, hne]
  exact ⟨hg, by simp [ref_from_lisp, hg]⟩

/-- C1 witness: the demo host's sole user pointer is tagged for type `X`;
retrieving it as type `B` fails with the expected error and no fetch. -/
theorem get_raw_pointer_wrong_tag_witness :
    get_raw_pointer (.base "B") demoEnv (.other 0) =
      ⟨.error (.wrongTypeUserPtr "B"), false⟩ ∧
    ref_from_lisp (.base "B") demoEnv (.other 0) =
      ⟨.error (.wrongTypeUserPtr "B"), false, false⟩ :=
  get_raw_pointer_wrong_tag (.base "B") demoEnv (.other 0)
    (.inr ⟨finalize (.base "X"), rfl, by decide⟩)

/-- C2: the finalizer identities instantiated for two distinct registered
transferable types are never equal — wrapping the same inner type in two
different shareable wrappers gives mutually non-matching tags. -/
theorem finalize_injective (A B : TransferType) (h : A ≠ B) :
    finalize A ≠ finalize B :=
  fun hf => h (congrArg Finalizer.instType hf)

/-- C2 witness: `Mutex<X>` and `Rc<X>` have different finalizer tags. -/
theorem finalize_injective_witness :
    finalize (.wrap .mutex (.base "X")) ≠ finalize (.wrap .rc (.base "X")) :=
  finalize_injective (.wrap .mutex (.base "X")) (.wrap .rc (.base "X")) (by decide)

/-! ### Optionality mapping -/

/-- C3: for a host whose `intern "nil"` yields the nil symbol (the absence
sentinel, on which `is_not_nil` is false), `Option::into_lisp` sends `none`
to that sentinel and `Option::from_lisp` sends the sentinel to `Ok none`,
for every inner type and inner conversion. -/
theorem option_nil_mapping {α : Type} (intoT : α → Except ErrorKind HostVal)
    (fromT : HostVal → Except ErrorKind α) (env : Env)
    (hintern : env.intern "nil" = .ok (.symbol "nil"))
    (hnil : env.is_not_nil (.symbol "nil") = false) :
    option_into_lisp intoT env none = .ok (.symbol "nil") ∧
    option_from_lisp fromT env (.symbol "nil") = .ok none := by
  constructor
  · simp [option_into_lisp, hostCall, hintern]
  · simp [option_from_lisp, hnil]

/-- C3 witness: instantiated at `α = Nat` on the demo host. -/
theorem option_nil_mapping_witness :
    option_into_lisp (fun n : Nat => .ok (.other n)) demoEnv none =
      .ok (.symbol "nil") ∧
    option_from_lisp (fun _ => .ok (0 : Nat)) demoEnv (.symbol "nil") =
      .ok none :=
  option_nil_mapping (fun n : Nat => .ok (.other n)) (fun _ => .ok (0 : Nat))
    demoEnv rfl (by decide)

/-- C9: nested optionals collapse — `some none` and `none` convert to the
same host value, the interned nil sentinel, for every environment and inner
conversion; the two native states are therefore indistinguishable to any
subsequent host→native conversion of the common result. -/
theorem option_some_none_collapse {α : Type}
    (intoT : α → Except ErrorKind HostVal) (env : Env) :
    option_into_lisp (option_into_lisp intoT env) env (some none) =
      option_into_lisp (option_into_lisp intoT env) env none ∧
    option_into_lisp (option_into_lisp intoT env) env (some none) =
      hostCall (env.intern "nil") :=
  ⟨rfl, rfl⟩

/-- C10: on a host value that is not the absence sentinel,
`Option::from_lisp` succeeds with `some x` exactly when the inner
conversion succeeds with `x`, fails with exactly the inner conversion's
error, and never maps a present host value to `none`. -/
theorem option_from_lisp_present {α : Type}
    (fromT : HostVal → Except ErrorKind α) (env : Env) (v : HostVal)
    (h : env.is_not_nil v = true) :
    (∀ x, option_from_lisp fromT env v = .ok (some x) ↔ fromT v = .ok x) ∧
    (∀ e, option_from_lisp fromT env v = .error e ↔ fromT v = .error e) ∧
    option_from_lisp fromT env v ≠ .ok none := by
  unfold option_from_lisp
  rw [if_pos h]
  cases hE : fromT v with
  | ok x => refine ⟨?_, ?_, ?_⟩ <;> simp
  | error e => refine ⟨?_, ?_, ?_⟩ <;> simp

/-- C10 witness: a present host value whose inner conversion yields 3 gives
`some 3`, on the demo host. -/
theorem option_from_lisp_present_witness :
    option_from_lisp (fun _ => .ok (3 : Nat)) demoEnv (.other 0) =
      .ok (some 3) :=
  ((option_from_lisp_present (fun _ => .ok (3 : Nat)) demoEnv (.other 0)
    (by decide)).1 3).mpr rfl

/-! ### Scalar round trips -/

/-- C8: with the host's make-integer and extract-integer primitives
behaving per their contract on `i` (make yields a handle from which extract
recovers `i`), the i64 round trip returns `Ok i`; likewise the f64 round
trip recovers the bit pattern up to bitwise equality excluding NaN payload
differences, when the float primitives meet their contract on `x`. -/
theorem scalar_roundtrip (env : Env) (i : Int) (x y : Nat) (v w : HostVal)
    (hmk : env.make_integer i = .ok v) (hex : env.extract_integer v = .ok i)
    (hmkf : env.make_float x = .ok w) (hexf : env.extract_float w = .ok y)
    (hnan : sameF64ModNaN x y = true) :
    roundtrip_i64 env i = .ok i ∧
    ∃ y2, roundtrip_f64 env x = .ok y2 ∧ sameF64ModNaN x y2 = true := by
  constructor
  · simp [roundtrip_i64, i64_into_lisp, i64_from_lisp, hostCall, hmk, hex]
  · exact ⟨y,
      by simp [roundtrip_f64, f64_into_lisp, f64_from_lisp, hostCall, hmkf, hexf],
      hnan⟩

/-- C8 witness: on the demo host, whose integer slot holds 5 and whose
float slot holds the pattern 7. -/
theorem scalar_roundtrip_witness :
    roundtrip_i64 demoEnv 5 = .ok 5 ∧
    ∃ y2, roundtrip_f64 demoEnv 7 = .ok y2 ∧ sameF64ModNaN 7 y2 = true :=
  scalar_roundtrip demoEnv 5 7 7 (.other 1) (.other 2) rfl rfl rfl rfl (by decide)

/-! ### Two-phase string copy -/

/-- C5: in either phase of `Env::string_bytes`, if the raw-call gateway
reports success (no host signal) but `copy_string_contents` returns
`false`, the operation panics — it returns neither a recoverable error nor
a byte buffer. -/
theorem string_bytes_abi_violation_panics (env : Env) (v : HostVal) :
    (∀ len, env.copy_phase1 v = .ok (false, len) →
      string_bytes env v =
        .panicked "Emacs failed to give string length but did not raise a signal") ∧
    (∀ len content, env.copy_phase1 v = .ok (true, len) →
      env.copy_phase2 v len.toNat = .ok (false, content) →
      string_bytes env v =
        .panicked "Emacs failed to copy string but did not raise a signal") := by
  constructor
  · intro len h
    simp [string_bytes, h]
  · intro len content h1 h2
    simp [string_bytes, h1, h2]

/-- C5 witness: both panic paths, on hosts whose copy primitive returns
`false` at phase 1 resp. phase 2 without signalling. -/
theorem string_bytes_abi_violation_panics_witness :
    string_bytes envPhase1False (.other 0) =
      .panicked "Emacs failed to give string length but did not raise a signal" ∧
    string_bytes envPhase2False (.other 0) =
      .panicked "Emacs failed to copy string but did not raise a signal" :=
  ⟨(string_bytes_abi_violation_panics envPhase1False (.other 0)).1 3 rfl,
    (string_bytes_abi_violation_panics envPhase2False (.other 0)).2 3 [] rfl rfl⟩

/-- C7: on every successful run of `Env::string_bytes`, the byte length the
host reported in phase 1 equals the length of the returned buffer plus the
number of trailing zero bytes stripped from the phase-2 buffer. -/
theorem string_bytes_length_accounting (env : Env) (v : HostVal)
    (len : Int) (content bytes : List Nat)
    (h1 : env.copy_phase1 v = .ok (true, len))
    (h2 : env.copy_phase2 v len.toNat = .ok (true, content))
    (hres : string_bytes env v = .ok bytes) :
    ∃ z, len.toNat = bytes.length + z ∧
      bytes ++ List.replicate z 0 =
        content.take len.toNat ++ List.replicate (len.toNat - content.length) 0 := by
  set buf : List Nat :=
    content.take len.toNat ++ List.replicate (len.toNat - content.length) 0 with hbuf
  have hrun : string_bytes env v = .ok (strip_trailing_zero_bytes buf) := by
    simp [string_bytes, h1, h2, hbuf]
  rw [hrun] at hres
  have hbytes : bytes = strip_trailing_zero_bytes buf := (Outcome.ok.inj hres).symm
  have hbuflen : buf.length = len.toNat := by
    rw [hbuf]
    simp only [List.length_append, List.length_take, List.length_replicate]
    omega
  obtain ⟨z, hz⟩ := strip_decomp buf
  have hzlen : (strip_trailing_zero_bytes buf).length + z = buf.length := by
    have := congrArg List.length hz
    simpa using this
  refine ⟨z, ?_, ?_⟩
  · rw [hbytes]
    omega
  · rw [hbytes, hz]

/-- C7 witness: the demo host reports length 3 and fills `[104, 105, 0]`;
the returned buffer `[104, 105]` plus one stripped zero accounts for 3. -/
theorem string_bytes_length_accounting_witness :
    ∃ z, (3 : Int).toNat = [104, 105].length + z ∧
      [104, 105] ++ List.replicate z 0 =
        [104, 105, 0].take (3 : Int).toNat ++
          List.replicate ((3 : Int).toNat - [104, 105, 0].length) 0 :=
  string_bytes_length_accounting demoEnv (.other 0) 3 [104, 105, 0] [104, 105]
    rfl rfl (by decide)

/-- C4 counterexample: under the utf-8-validation build, a host string
holding the single malformed byte 0xFF makes `String::from_lisp` panic
(`unwrap` of the `Err` from `String::from_utf8`); the result is a process
abort, not a recoverable error result returned to the caller, refuting the
claim as stated. -/
theorem string_from_lisp_validated_panics_cex :
    string_from_lisp_validated envBadUtf8 (.other 0) =
      .panicked "called Result::unwrap on an Err value" := by decide

/-- C4 (amended): under the utf-8-validation build, `String::from_lisp`
applied to a byte buffer that is not well-formed UTF-8 rejects the
malformed encoding — the bytes are never returned as a success — but by
panicking (aborting), not by returning a recoverable error result. -/
theorem string_from_lisp_validated_rejects (env : Env) (v : HostVal)
    (bytes : List Nat) (hb : string_bytes env v = .ok bytes)
    (hinv : isValidUtf8 bytes = false) :
    string_from_lisp_validated env v =
      .panicked "called Result::unwrap on an Err value" := by
  simp [string_from_lisp_validated, hb, hinv]

/-- C4 witness: the amended rejection at the concrete malformed byte 0xFF. -/
theorem string_from_lisp_validated_rejects_witness :
    string_from_lisp_validated envBadUtf8 (.other 0) =
      .panicked "called Result::unwrap on an Err value" :=
  string_from_lisp_validated_rejects envBadUtf8 (.other 0) [0xFF]
    (by decide) (by decide)

end EmacsConvert
